import Mathlib

/-!
Verification of the crawl-and-classify engine of `search_allergy` (src/index.js)
against its natural-language specification.

The embedding is shallow: the pure decision logic of the source is translated
into executable Lean definitions; network and browser effects are made explicit
by passing the outcome of each effectful call (fetched HTML, rendered links,
sitemap fetch, robots fetch) as a value of an `Except`/`Option` type, exactly
where the JavaScript `await`s that call.
-/

/-! ## String helpers

The JavaScript string methods used by the source (`toLowerCase`, `endsWith`,
`startsWith`, `trim`, slicing) are modelled by executable functions on the
character list of a `String`, so that every definition evaluates inside the
kernel.  JavaScript `toLowerCase` and `Char.toLower` agree on the ASCII and
Japanese characters involved here (Japanese characters are unchanged by both). -/

def lowerStr (s : String) : String :=
  String.mk (s.data.map Char.toLower)

def startsWithSeq : List Char → List Char → Bool
  | [], _ => true
  | _ :: _, [] => false
  | a :: as, b :: bs => a == b && startsWithSeq as bs

/-- `s.startsWith pre` of JavaScript. -/
def startsWithStr (s pre : String) : Bool :=
  startsWithSeq pre.data s.data

/-- `s.endsWith post` of JavaScript. -/
def endsWithStr (s post : String) : Bool :=
  startsWithSeq post.data.reverse s.data.reverse

/-- `s.slice n` of JavaScript (drop the first `n` characters). -/
def dropStr (s : String) (n : Nat) : String :=
  String.mk (s.data.drop n)

def isWsChar (c : Char) : Bool :=
  c == ' ' || c == '\t' || c == '\n' || c == '\r'

def dropLeadingWs : List Char → List Char
  | [] => []
  | c :: cs => if isWsChar c then dropLeadingWs cs else c :: cs

/-- `s.trim()` of JavaScript: strip whitespace from both ends. -/
def trimStr (s : String) : String :=
  String.mk (dropLeadingWs (dropLeadingWs s.data.reverse).reverse)

def containsSeq (needle : List Char) : List Char → Bool
  | [] => startsWithSeq needle []
  | b :: bs => startsWithSeq needle (b :: bs) || containsSeq needle bs

/-- `containsCI hay needle` models `new RegExp(needle, 'i').test(hay)` for the
literal keywords of the source (none of which contains a regex metacharacter):
a case-insensitive substring test. -/
def containsCI (hay needle : String) : Bool :=
  containsSeq (lowerStr needle).data (lowerStr hay).data

/-! ## URL resolution

`resolveURL href base` models `new URL(href, base).href`, restricted to the
reference forms the development evaluates concretely: absolute `http(s)` URLs
(returned as written) and root-relative references (origin of `base` ++ href).
Every other form is treated as unresolvable; the source wraps resolution in a
`try`/`catch` that skips a candidate whose resolution fails, and every claim
that quantifies over pages uses this same resolver on both sides, so the
restriction does not affect any claim's truth value. -/

def takeUntilSlash : List Char → List Char
  | [] => []
  | c :: cs => if c == '/' then [] else c :: takeUntilSlash cs

def getOrigin (url : String) : Option String :=
  if startsWithStr url "https://" then
    some ("https://" ++ String.mk (takeUntilSlash (dropStr url 8).data))
  else if startsWithStr url "http://" then
    some ("http://" ++ String.mk (takeUntilSlash (dropStr url 7).data))
  else none

def resolveURL (href base : String) : Option String :=
  if startsWithStr href "http://" || startsWithStr href "https://" then some href
  else if startsWithStr href "/" then (getOrigin base).map (fun o => o ++ href)
  else none

/-! ## Data model -/

/-- A classified PDF link: `{ url, text, source }` as pushed by
`searchPDFsInPage` / `searchPDFsInPageWithJS`. -/
structure PdfHit where
  url : String
  text : String
  source : String
deriving Repr, DecidableEq

/-- One anchor element extracted by `$('a').each`: its `href` attribute
(absent hrefs are skipped by the source) and its raw visible text
(the source trims it at use). -/
structure Anchor where
  href : Option String
  text : String
deriving Repr, DecidableEq

/-- A parsed robots.txt policy (the object returned by `robots-parser`),
abstracted to its `isAllowed` answer per URL. -/
structure RobotsPolicy where
  isAllowed : String → Bool

/-- `isAllowedByRobots(robots, url)` from src/index.js:
`if (!robots) return true; return robots.isAllowed(url, 'CustomBot');` -/
def isAllowedByRobots (robots : Option RobotsPolicy) (url : String) : Bool :=
  match robots with
  | none => true
  | some r => r.isAllowed url

/-! ## LinkClassifier -/

/-- The `ALLERGY_KEYWORDS` array of `searchPDFsInPage` (the static scanner),
verbatim, including its duplicated `'allergen'` entry. -/
def ALLERGY_KEYWORDS : List String :=
  ["allergy", "アレルギー", "allergen", "pictogram",
   "特定原材料", "原料", "成分", "含まれる", "allergen",
   "ingredient", "ingredients"]

/-- The `ALLERGY_KEYWORDS` array of `searchPDFsInPageWithJS`, verbatim
(it lists `'allergen'` once). -/
def ALLERGY_KEYWORDS_JS : List String :=
  ["allergy", "アレルギー", "allergen", "pictogram",
   "特定原材料", "原料", "成分", "含まれる",
   "ingredient", "ingredients"]

/-- `const isPDF = fullUrl.toLowerCase().endsWith('.pdf');` -/
def isPDF (fullUrl : String) : Bool :=
  endsWithStr (lowerStr fullUrl) ".pdf"

/-- `ALLERGY_KEYWORDS.some(keyword => new RegExp(keyword, 'i').test(fullUrl)
|| new RegExp(keyword, 'i').test(linkText))` of the static scanner. -/
def isAllergyKeyword (fullUrl linkText : String) : Bool :=
  ALLERGY_KEYWORDS.any (fun keyword =>
    containsCI fullUrl keyword || containsCI linkText keyword)

/-- Same test in `searchPDFsInPageWithJS`, with its own keyword list. -/
def isAllergyKeywordJS (fullUrl linkText : String) : Bool :=
  ALLERGY_KEYWORDS_JS.any (fun keyword =>
    containsCI fullUrl keyword || containsCI linkText keyword)

/-- The classifier conjunction `isPDF && isAllergyKeyword` of the static
scanner, factored out of `searchPDFsInPage`. -/
def qualifies (fullUrl linkText : String) : Bool :=
  isPDF fullUrl && isAllergyKeyword fullUrl linkText

/-! ## PageScanner -/

/-- Processing of one anchor inside `$('a').each` of `searchPDFsInPage`:
skip absent hrefs, resolve against the page URL (resolution failure is the
`catch` that ignores the candidate), classify, and, for a qualifying link,
push the hit only when `robots && isAllowedByRobots(robots, fullUrl)`. -/
def anchorHit (pageUrl : String) (robots : Option RobotsPolicy) (a : Anchor) :
    Option PdfHit :=
  match a.href with
  | none => none
  | some href =>
    match resolveURL href pageUrl with
    | none => none
    | some fullUrl =>
      let linkText := trimStr a.text
      if qualifies fullUrl linkText then
        if robots.isSome && isAllowedByRobots robots fullUrl then
          some ⟨fullUrl, if linkText = "" then "PDF" else linkText, pageUrl⟩
        else none
      else none

/-- `searchPDFsInPage(url, robots)` from src/index.js.  The fetched-and-parsed
page is passed explicitly: `.error` is a fetch/parse failure (the function's
own `catch` returns `[]`), `.ok anchors` the anchor list produced by cheerio.
The leading guard is `if (robots && !isAllowedByRobots(robots, url)) return []`. -/
def searchPDFsInPage (url : String) (robots : Option RobotsPolicy)
    (fetched : Except Unit (List Anchor)) : List PdfHit :=
  if robots.isSome && !(isAllowedByRobots robots url) then []
  else
    match fetched with
    | .error _ => []
    | .ok anchors => anchors.filterMap (anchorHit url robots)

/-! ## Concrete inputs for the specification's seed-page scenario -/

def seedUrl : String := "https://example.test/"

def seedAnchors : List Anchor :=
  [⟨some "/docs/allergy.pdf", "アレルギー情報"⟩]

/-- A robots policy that allows every URL. -/
def allowAll : RobotsPolicy := ⟨fun _ => true⟩

/-- Spec-side notion used by C3: an anchor satisfies the
PDF-extension-plus-keyword rule of the classifier (no robots involved). -/
def satisfiesRule (pageUrl : String) (a : Anchor) : Bool :=
  match a.href with
  | none => false
  | some href =>
    match resolveURL href pageUrl with
    | none => false
    | some fullUrl => qualifies fullUrl (trimStr a.text)

/-- C1: scanning the spec's seed page with a `null` robots policy.  The anchor
satisfies the classifier rule, and with a present allow-all policy the scan
returns exactly the expected `PdfHit`; but with the `null` policy the source's
inclusion guard `robots && isAllowedByRobots(robots, fullUrl)` is falsy, so the
scan returns `[]` instead of the one hit the specification requires. -/
theorem c1_null_policy_eval :
    satisfiesRule seedUrl ⟨some "/docs/allergy.pdf", "アレルギー情報"⟩ = true
    ∧ searchPDFsInPage seedUrl none (.ok seedAnchors) = []
    ∧ searchPDFsInPage seedUrl (some allowAll) (.ok seedAnchors) =
        [⟨"https://example.test/docs/allergy.pdf", "アレルギー情報",
          "https://example.test/"⟩] := by
  refine ⟨?_, ?_, ?_⟩ <;> rfl

/-! ## C2 / C3: the classifier -/

/-- Key classification lemma: under a present, all-allowing robots policy, an
anchor produces a hit exactly when it satisfies the classifier rule. -/
theorem anchorHit_isSome (url : String) (p : RobotsPolicy)
    (hAllow : ∀ u, p.isAllowed u = true) (a : Anchor) :
    (anchorHit url (some p) a).isSome = satisfiesRule url a := by
  unfold anchorHit satisfiesRule
  cases a.href with
  | none => rfl
  | some href =>
    cases hres : resolveURL href url with
    | none => simp [hres]
    | some fullUrl =>
      simp only [hres, isAllowedByRobots, hAllow, Option.isSome_some,
        Bool.and_self]
      by_cases hq : qualifies fullUrl (trimStr a.text) = true
      · simp [hq]
      · simp [hq]

/-- The query-and-fragment-free part of a URL: the spec's "path" for the
purpose of the extension comparison (a prefix such as the origin cannot affect
an `endsWith` test). -/
def takeUntilQueryOrHash : List Char → List Char
  | [] => []
  | c :: cs => if c == '?' || c == '#' then [] else c :: takeUntilQueryOrHash cs

/-- Spec-side definition, following the spec's words for C2 clause (a): the
absolute URL's PATH, compared case-insensitively, ends with the PDF
extension. -/
def spec_pathEndsWithPdf (url : String) : Bool :=
  endsWithStr (lowerStr (String.mk (takeUntilQueryOrHash url.data))) ".pdf"

/-- Spec-side classifier for C2: path-based PDF test plus keyword match. -/
def spec_qualifies (fullUrl linkText : String) : Bool :=
  spec_pathEndsWithPdf fullUrl && isAllergyKeyword fullUrl linkText

def cexUrl : String := "https://example.test/docs/allergy.pdf?v=1"

/-- C2, counterexample: for the URL `https://example.test/docs/allergy.pdf?v=1`
(with empty link text) the spec's rule (a)+(b) holds — its path ends with
`.pdf` and the keyword `allergy` occurs in the URL — but the code's classifier
rejects it, because the code tests `fullUrl.toLowerCase().endsWith('.pdf')` on
the WHOLE URL string, which here ends in `?v=1`.  So "qualifies iff (a) ∧ (b)"
is false at this candidate. -/
theorem c2_counterexample :
    spec_qualifies cexUrl "" = true ∧ qualifies cexUrl "" = false :=
  ⟨rfl, rfl⟩

/-- C2 (amended): under a present all-allowing robots policy, a link candidate
is classified as a PDF hit if and only if (a) the ENTIRE absolute URL,
lowercased, ends with `.pdf` (not merely its path), and (b) some keyword of the
curated set matches case-insensitively against the absolute URL or the trimmed
visible link text. -/
theorem c2_classifier_amended (pageUrl : String) (p : RobotsPolicy)
    (hAllow : ∀ u, p.isAllowed u = true) (a : Anchor) :
    (anchorHit pageUrl (some p) a).isSome = true ↔
      ∃ href fullUrl, a.href = some href ∧ resolveURL href pageUrl = some fullUrl
        ∧ endsWithStr (lowerStr fullUrl) ".pdf" = true
        ∧ ∃ k, k ∈ ALLERGY_KEYWORDS ∧
            (containsCI fullUrl k = true ∨ containsCI (trimStr a.text) k = true) := by
  rw [anchorHit_isSome pageUrl p hAllow a]
  unfold satisfiesRule
  cases a.href with
  | none => simp
  | some href =>
    cases hres : resolveURL href pageUrl with
    | none => simp [hres]
    | some fullUrl =>
      simp [hres, qualifies, isPDF, isAllergyKeyword, List.any_eq_true,
        Bool.and_eq_true, Bool.or_eq_true]

/-- Witness for C2 (amended) at the seed-page anchor. -/
theorem c2_classifier_amended_witness :
    (anchorHit seedUrl (some allowAll)
      ⟨some "/docs/allergy.pdf", "アレルギー情報"⟩).isSome = true :=
  (c2_classifier_amended seedUrl allowAll (fun _ => rfl)
      ⟨some "/docs/allergy.pdf", "アレルギー情報"⟩).mpr
    ⟨"/docs/allergy.pdf", "https://example.test/docs/allergy.pdf", rfl, rfl, rfl,
     "allergy", by decide, Or.inl rfl⟩

/-- C3: on a page whose parsed HTML contains the given anchors, with a present
robots policy that allows every URL, `searchPDFsInPage` returns exactly as many
hits as there are anchors satisfying the PDF-extension-plus-keyword rule. -/
theorem c3_scan_count (url : String) (p : RobotsPolicy)
    (hAllow : ∀ u, p.isAllowed u = true) (anchors : List Anchor) :
    (searchPDFsInPage url (some p) (.ok anchors)).length =
      (anchors.filter (satisfiesRule url)).length := by
  unfold searchPDFsInPage
  rw [show ((some p : Option RobotsPolicy).isSome
      && !(isAllowedByRobots (some p) url)) = false by
    simp [isAllowedByRobots, hAllow]]
  simp only [Bool.false_eq_true, if_false]
  induction anchors with
  | nil => rfl
  | cons a t ih =>
    have h := anchorHit_isSome url p hAllow a
    cases hfa : anchorHit url (some p) a with
    | none =>
      rw [hfa] at h
      simp only [Option.isSome_none] at h
      simp [List.filterMap_cons, hfa, List.filter_cons, ← h, ih]
    | some b =>
      rw [hfa] at h
      simp only [Option.isSome_some] at h
      simp [List.filterMap_cons, hfa, List.filter_cons, ← h, ih]

/-- Witness for C3 at the seed-page scenario. -/
theorem c3_scan_count_witness :
    (searchPDFsInPage seedUrl (some allowAll) (.ok seedAnchors)).length =
      (seedAnchors.filter (satisfiesRule seedUrl)).length :=
  c3_scan_count seedUrl allowAll (fun _ => rfl) seedAnchors

/-! ## C7: RenderedPageScanner -/

/-- One link collected by `page.evaluate` in `searchPDFsInPageWithJS`: an
`href`-like string from an anchor or interactive element's data attributes,
with trimmed `textContent` (`el.textContent.trim()` in the browser). -/
structure RenderedLink where
  href : String
  text : String
deriving Repr, DecidableEq

/-- Processing of one rendered link in the `for (const link of links)` loop of
`searchPDFsInPageWithJS`: same resolution, classification (JS keyword list) and
robots gate as the static scanner. -/
def renderedHit (pageUrl : String) (robots : Option RobotsPolicy)
    (l : RenderedLink) : Option PdfHit :=
  match resolveURL l.href pageUrl with
  | none => none
  | some fullUrl =>
    if isPDF fullUrl && isAllergyKeywordJS fullUrl l.text then
      if robots.isSome && isAllowedByRobots robots fullUrl then
        some ⟨fullUrl, if l.text = "" then "PDF" else l.text, pageUrl⟩
      else none
    else none

/-- `searchPDFsInPageWithJS(url, robots)` from src/index.js.  `render` is the
outcome of the headless-browser block (`puppeteer.launch` … `page.evaluate`):
`.ok links` is the extracted link list, `.error` any rendering failure
(timeout, crash, navigation error).  In the failure case the source's `catch`
closes the browser (an effect with no result value) and returns
`await searchPDFsInPage(url, robots)`; `fetched` is the page world that this
static fallback sees. -/
def searchPDFsInPageWithJS (url : String) (robots : Option RobotsPolicy)
    (render : Except Unit (List RenderedLink))
    (fetched : Except Unit (List Anchor)) : List PdfHit :=
  if robots.isSome && !(isAllowedByRobots robots url) then []
  else
    match render with
    | .error _ => searchPDFsInPage url robots fetched
    | .ok links => links.filterMap (renderedHit url robots)

/-- C7: on any rendering failure, the rendered scanner returns exactly the
result of the static scanner on the same URL with the same policy — for every
URL, every policy (including `null` and blocking policies) and every state of
the fetched page; it never surfaces an error. -/
theorem c7_render_fallback (url : String) (robots : Option RobotsPolicy)
    (e : Unit) (fetched : Except Unit (List Anchor)) :
    searchPDFsInPageWithJS url robots (.error e) fetched =
      searchPDFsInPage url robots fetched := by
  unfold searchPDFsInPageWithJS
  by_cases h : (robots.isSome && !(isAllowedByRobots robots url)) = true
  · rw [if_pos h]
    unfold searchPDFsInPage
    rw [if_pos h]
  · rw [if_neg h]

/-! ## C6 / C10: BatchScheduler -/

/-- The batching loop `for (let i = 0; i < subpageUrls.length; i += maxConcurrent)`
with `subpageUrls.slice(i, i + maxConcurrent)`, encoded with the list length as
fuel (the source loop advances by `maxConcurrent` each iteration, so for
`maxConcurrent ≥ 1` at most `length` iterations happen; for
`maxConcurrent = 0` the source loop does not terminate, and all theorems below
take a positive `maxConcurrent`). -/
def chunkBatchesAux : Nat → Nat → List String → List (List String)
  | 0, _, _ => []
  | _ + 1, _, [] => []
  | fuel + 1, mc, u :: us => (u :: us).take mc :: chunkBatchesAux fuel mc ((u :: us).drop mc)

def chunkBatches (mc : Nat) (urls : List String) : List (List String) :=
  chunkBatchesAux urls.length mc urls

/-- `searchSubpagesParallel(subpageUrls, robots, maxConcurrent)` from
src/index.js, up to its result value.  `scan` abstracts
`url => searchPDFsInPage(url, robots)` together with the ambient network
(each URL's fetched page); `Promise.all(batch.map(...))` resolves to the
per-URL result arrays in the positional order of `batch`, `results.flat()`
concatenates them, and the loop appends batch results in batch order
(`pdfLinks.push(...)`).  The staggered start delays and inter-batch delays
only affect timing, not the value. -/
def searchSubpagesParallel (scan : String → List PdfHit)
    (subpageUrls : List String) (maxConcurrent : Nat) : List PdfHit :=
  (chunkBatches maxConcurrent subpageUrls).foldl
    (fun pdfLinks batch => pdfLinks ++ (batch.map scan).flatten) []

theorem chunkBatchesAux_join (m : Nat) :
    ∀ (fuel : Nat) (l : List String), l.length ≤ fuel →
      (chunkBatchesAux fuel (m + 1) l).flatten = l := by
  intro fuel
  induction fuel with
  | zero =>
    intro l h
    have : l = [] := List.eq_nil_of_length_eq_zero (Nat.le_zero.mp h)
    subst this
    rfl
  | succ n ih =>
    intro l h
    match l with
    | [] => rfl
    | u :: us =>
      have hlen : ((u :: us).drop (m + 1)).length ≤ n := by
        simp only [List.length_drop, List.length_cons]
        simp only [List.length_cons] at h
        omega
      calc (chunkBatchesAux (n + 1) (m + 1) (u :: us)).flatten
          = (u :: us).take (m + 1) ++ (chunkBatchesAux n (m + 1) ((u :: us).drop (m + 1))).flatten := by
            simp [chunkBatchesAux]
        _ = (u :: us).take (m + 1) ++ (u :: us).drop (m + 1) := by rw [ih _ hlen]
        _ = u :: us := List.take_append_drop (m + 1) (u :: us)

theorem chunkBatchesAux_length_le (m : Nat) :
    ∀ (fuel : Nat) (l : List String) (b : List String),
      b ∈ chunkBatchesAux fuel (m + 1) l → b.length ≤ m + 1 := by
  intro fuel
  induction fuel with
  | zero => intro l b hb; simp [chunkBatchesAux] at hb
  | succ n ih =>
    intro l b hb
    match l with
    | [] => simp [chunkBatchesAux] at hb
    | u :: us =>
      simp only [chunkBatchesAux, List.mem_cons] at hb
      cases hb with
      | inl hb => subst hb; exact List.length_take_le (m + 1) (u :: us)
      | inr hb => exact ih _ _ hb

theorem foldl_append_join (f : List String → List PdfHit) :
    ∀ (l : List (List String)) (acc : List PdfHit),
      l.foldl (fun a b => a ++ f b) acc = acc ++ (l.map f).flatten := by
  intro l
  induction l with
  | nil => intro acc; simp
  | cons b t ih => intro acc; simp [ih, List.append_assoc]

theorem join_map_join_map (scan : String → List PdfHit) :
    ∀ l : List (List String),
      (l.map (fun batch => (batch.map scan).flatten)).flatten = ((l.flatten).map scan).flatten := by
  intro l
  induction l with
  | nil => rfl
  | cons b t ih => simp [ih]

/-- C6: for a positive `maxConcurrent` the scheduler partitions the URL list
into consecutive batches whose concatenation is the input list, every batch —
the set of scans simultaneously in flight under `Promise.all` — has at most
`maxConcurrent` URLs, any 5-URL list with `maxConcurrent = 2` gives exactly
the three batches of sizes 2, 2, 1, and the overall result is the
concatenation, in batch order, of each completed batch's results. -/
theorem c6_batching (scan : String → List PdfHit) (urls : List String)
    (m : Nat) (a b c d e : String) :
    (chunkBatches (m + 1) urls).flatten = urls
    ∧ (∀ batch, batch ∈ chunkBatches (m + 1) urls → batch.length ≤ m + 1)
    ∧ (chunkBatches 2 [a, b, c, d, e]).map List.length = [2, 2, 1]
    ∧ searchSubpagesParallel scan urls (m + 1) =
        ((chunkBatches (m + 1) urls).map (fun batch => (batch.map scan).flatten)).flatten := by
  refine ⟨chunkBatchesAux_join m urls.length urls (Nat.le_refl _),
    fun batch hb => chunkBatchesAux_length_le m urls.length urls batch hb, ?_, ?_⟩
  · simp [chunkBatches, chunkBatchesAux]
  · unfold searchSubpagesParallel
    rw [foldl_append_join]
    rfl

/-- C10: for a positive `maxConcurrent`, the scheduler's result is exactly the
concatenation of the per-URL scan results in the order of the input URL list:
batching plus positional `Promise.all` preserve input order globally. -/
theorem c10_order_preserved (scan : String → List PdfHit) (urls : List String)
    (m : Nat) :
    searchSubpagesParallel scan urls (m + 1) = (urls.map scan).flatten := by
  unfold searchSubpagesParallel
  rw [foldl_append_join, join_map_join_map]
  rw [show (chunkBatches (m + 1) urls).flatten = urls from
    chunkBatchesAux_join m urls.length urls (Nat.le_refl _)]
  rfl

/-! ## C4: RobotsGate cache -/

/-- `robotsCache.get` / `robotsCache.has`: lookup in the process-wide `Map`,
modelled as an association list keyed by `baseUrl` (insertion happens only on
misses, so append preserves `Map.set` semantics). -/
def cacheLookup (cache : List (String × RobotsPolicy)) (k : String) :
    Option RobotsPolicy :=
  match cache with
  | [] => none
  | (k2, v) :: rest => if k2 = k then some v else cacheLookup rest k

/-- Result of one `getRobotsRulesWithCache` call: the returned rules, the
cache afterwards, and how many network fetches of robots.txt the call
performed. -/
structure GetResult where
  rules : Option RobotsPolicy
  cache : List (String × RobotsPolicy)
  fetches : Nat

/-- `getRobotsRulesWithCache(baseUrl)` from src/index.js.  `parse` abstracts
`robotsParser(robotsUrl, robotsTxt)` (always a non-null object); `world`
abstracts `fetch(robotsUrl)` followed by `.text()` — `.ok txt` a successful
fetch of the robots.txt body, `.error` a thrown network failure, which the
`catch` turns into `null` WITHOUT touching the cache. -/
def getRobotsRulesWithCache (parse : String → RobotsPolicy)
    (world : String → Except Unit String)
    (cache : List (String × RobotsPolicy)) (baseUrl : String) : GetResult :=
  match cacheLookup cache baseUrl with
  | some rules => ⟨some rules, cache, 0⟩
  | none =>
    match world baseUrl with
    | .error _ => ⟨none, cache, 1⟩
    | .ok txt => ⟨some (parse txt), cache ++ [(baseUrl, parse txt)], 1⟩

/-- Two successive calls for the same base URL within one run. -/
def twoRobotsCalls (parse : String → RobotsPolicy)
    (world : String → Except Unit String)
    (cache : List (String × RobotsPolicy)) (baseUrl : String) :
    GetResult × GetResult :=
  let r1 := getRobotsRulesWithCache parse world cache baseUrl
  let r2 := getRobotsRulesWithCache parse world r1.cache baseUrl
  (r1, r2)

def alwaysFailWorld : String → Except Unit String := fun _ => .error ()

def trivialParse : String → RobotsPolicy := fun _ => ⟨fun _ => true⟩

/-- C4, counterexample: starting from an empty cache, when the robots.txt
fetch fails (network error) on both attempts, two calls for the same origin
perform TWO network fetches, not one — a failed fetch is not cached, so the
second call is not served from the cache. -/
theorem c4_counterexample :
    ((twoRobotsCalls trivialParse alwaysFailWorld [] "https://example.test").1.fetches
      + (twoRobotsCalls trivialParse alwaysFailWorld [] "https://example.test").2.fetches)
      ≠ 1 := by
  decide

theorem cacheLookup_append_self (cache : List (String × RobotsPolicy))
    (k : String) (v : RobotsPolicy) (h : cacheLookup cache k = none) :
    cacheLookup (cache ++ [(k, v)]) k = some v := by
  induction cache with
  | nil => simp [cacheLookup]
  | cons p rest ih =>
    obtain ⟨k2, v2⟩ := p
    by_cases hk : k2 = k
    · simp [cacheLookup, hk] at h
    · simp only [cacheLookup, hk, if_false, List.cons_append] at h ⊢
      exact ih h

/-- C4 (amended): for a base URL not yet in the cache, if the robots.txt fetch
succeeds, the first call performs exactly one network fetch, caches the parsed
rules, and the second call performs zero fetches and returns the same rules
from the cache; if the fetch fails, the failure is not cached and each of the
two calls performs its own fetch, both returning `null`.  (The orchestrator
itself resolves the robots policy exactly once per run, so it performs at most
one robots fetch per run regardless.) -/
theorem c4_cache_amended (parse : String → RobotsPolicy)
    (world : String → Except Unit String)
    (cache : List (String × RobotsPolicy)) (baseUrl : String)
    (hMiss : cacheLookup cache baseUrl = none) :
    (∀ txt, world baseUrl = .ok txt →
      (twoRobotsCalls parse world cache baseUrl).1.fetches = 1
      ∧ (twoRobotsCalls parse world cache baseUrl).2.fetches = 0
      ∧ (twoRobotsCalls parse world cache baseUrl).2.rules = some (parse txt)
      ∧ (twoRobotsCalls parse world cache baseUrl).1.rules = some (parse txt))
    ∧ (world baseUrl = .error () →
      (twoRobotsCalls parse world cache baseUrl).1.fetches = 1
      ∧ (twoRobotsCalls parse world cache baseUrl).2.fetches = 1
      ∧ (twoRobotsCalls parse world cache baseUrl).1.rules = none
      ∧ (twoRobotsCalls parse world cache baseUrl).2.rules = none) := by
  constructor
  · intro txt hok
    have hsnd : cacheLookup (cache ++ [(baseUrl, parse txt)]) baseUrl
        = some (parse txt) := cacheLookup_append_self cache baseUrl (parse txt) hMiss
    simp [twoRobotsCalls, getRobotsRulesWithCache, hMiss, hok, hsnd]
  · intro herr
    simp [twoRobotsCalls, getRobotsRulesWithCache, hMiss, herr]

def okWorld : String → Except Unit String := fun _ => .ok "User-agent: *"

/-- Witness for C4 (amended): concrete successful-fetch run from the empty
cache. -/
theorem c4_cache_amended_witness :
    (twoRobotsCalls trivialParse okWorld [] "https://example.test").1.fetches = 1
    ∧ (twoRobotsCalls trivialParse okWorld [] "https://example.test").2.fetches = 0 :=
  have h := (c4_cache_amended trivialParse okWorld [] "https://example.test" rfl).1
    "User-agent: *" rfl
  ⟨h.1, h.2.1⟩

/-! ## C9: SitemapDiscoverer -/

/-- One `<url>` entry of the parsed `urlset`, as produced by xml2js: its `loc`
field is a list of location strings (`item.loc[0]` is taken by the source); an
absent `loc` is the empty list, on which `item.loc[0]` is the JavaScript
`TypeError` modelled below. -/
structure SitemapItem where
  loc : List String
deriving Repr, DecidableEq

/-- The outcome of `fetch(sitemapUrl)` + `parser.parseStringPromise(xml)` seen
by `getSitemapUrls`: a thrown network error, a non-success HTTP status
(`!response.ok`), or a body whose XML parse either throws or yields
`result.urlset && result.urlset.url` — `none` when that chain is absent. -/
inductive SitemapFetch where
  | netError
  | notOk
  | ok (parse : Except Unit (Option (List SitemapItem)))

/-- `result.urlset.url.map(item => item.loc[0])`: `none` models the thrown
`TypeError` when some entry has no location (caught by the function's outer
`try`), otherwise the location heads in document order. -/
def locHeads : List SitemapItem → Option (List String)
  | [] => some []
  | item :: rest =>
    match item.loc with
    | [] => none
    | l0 :: _ => (locHeads rest).map (fun tail => l0 :: tail)

/-- `getSitemapUrls(baseUrl)` from src/index.js over the explicit fetch/parse
outcome: every failure path returns `[]` (logged, not thrown); a parsed urlset
yields the entries' location strings. -/
def getSitemapUrls : SitemapFetch → List String
  | .netError => []
  | .notOk => []
  | .ok (.error _) => []
  | .ok (.ok none) => []
  | .ok (.ok (some items)) =>
    match locHeads items with
    | none => []
    | some urls => urls

theorem locHeads_of_nonempty (items : List SitemapItem)
    (h : ∀ it, it ∈ items → it.loc ≠ []) :
    locHeads items = some (items.map (fun it => it.loc.headD "")) := by
  induction items with
  | nil => rfl
  | cons item rest ih =>
    have hloc := h item (List.mem_cons_self item rest)
    match hl : item.loc with
    | [] => exact absurd hl hloc
    | l0 :: ls =>
      have hrest := ih (fun it hit => h it (List.mem_cons_of_mem item hit))
      simp [locHeads, hl, hrest]

/-- C9: `getSitemapUrls` returns `[]` on a thrown fetch, a non-success HTTP
status, a thrown XML parse, or an absent urlset, never raising; and on a
successfully parsed urlset in which every entry carries a location string, it
returns exactly those location strings, preserving document order. -/
theorem c9_sitemap (items : List SitemapItem) :
    getSitemapUrls .netError = []
    ∧ getSitemapUrls .notOk = []
    ∧ getSitemapUrls (.ok (.error ())) = []
    ∧ getSitemapUrls (.ok (.ok none)) = []
    ∧ ((∀ it, it ∈ items → it.loc ≠ []) →
        getSitemapUrls (.ok (.ok (some items)))
          = items.map (fun it => it.loc.headD "")) := by
  refine ⟨rfl, rfl, rfl, rfl, fun h => ?_⟩
  simp [getSitemapUrls, locHeads_of_nonempty items h]

def demoSitemapItems : List SitemapItem :=
  [⟨["https://example.test/menu"]⟩, ⟨["https://example.test/allergen"]⟩]

/-- Witness for C9 at a concrete two-entry urlset. -/
theorem c9_sitemap_witness :
    getSitemapUrls (.ok (.ok (some demoSitemapItems)))
      = ["https://example.test/menu", "https://example.test/allergen"] :=
  (c9_sitemap demoSitemapItems).2.2.2.2 (by decide)

/-! ## C5 / C8: CrawlOrchestrator (`findAllergyPDFs`) -/

/-- `visitedUrls.add(url)` on the JavaScript `Set`, modelled on an
insertion-ordered duplicate-free list. -/
def setAdd (s : List String) (x : String) : List String :=
  if x ∈ s then s else s ++ [x]

/-- `xs.forEach(url => visitedUrls.add(url))`. -/
def setAddAll (s : List String) : List String → List String
  | [] => s
  | x :: xs => setAddAll (setAdd s x) xs

/-- The effectful collaborators `findAllergyPDFs` awaits, with their outcomes:
`robots` is the `getRobotsRules` result (that helper catches its own failures
and returns `null`, so it carries no error case); each remaining field is the
corresponding call's outcome, `.error` standing for an exception that
propagates into the orchestrator's top-level `catch`.  The scanners'
per-URL fetch worlds and the rendered/static scanner choice inside
`searchSitemapUrlsForPdfs` are folded into the list-level scan outcomes. -/
structure OrchWorld where
  robots : Option RobotsPolicy
  seedScan : Except Unit (List PdfHit)
  sitemap : Except Unit (List String)
  sitemapScan : List String → Except Unit (List PdfHit)
  subpages : Except Unit (List String)
  subScan : List String → Except Unit (List PdfHit)

/-- Observable trace of one orchestrator run: the accumulated hits it returns,
the visited-set snapshots after the seed phase, after the sitemap phase and at
the end (a snapshot repeats the previous state when the run aborted first),
and the URL lists dispatched for scanning in each of the three phases. -/
structure RunOutcome where
  hits : List PdfHit
  visitedAfterSeed : List String
  visitedAfterSitemap : List String
  visitedFinal : List String
  seedDispatch : List String
  sitemapDispatch : List String
  subDispatch : List String
deriving Repr

/-- The sub-page phase of `findAllergyPDFs`: discover sub-pages, filter against
the visited set, mark survivors visited, and batch-scan them when any remain.
`hitsSoFar`, `v1`, `d1`, `v2` are the accumulated hits, the visited snapshots
and the sitemap dispatch reaching this point. -/
def unvisitedOf (urls visited : List String) : List String :=
  urls.filter (fun u => decide (u ∉ visited))

def subpagePhase (w : OrchWorld) (siteUrl : String) (hitsSoFar : List PdfHit)
    (v1 : List String) (d1 : List String) (v2 : List String) : RunOutcome :=
  match w.subpages with
  | .error _ => ⟨hitsSoFar, v1, v2, v2, [siteUrl], d1, []⟩
  | .ok spUrls =>
    if unvisitedOf spUrls v2 = [] then
      ⟨hitsSoFar, v1, v2, setAddAll v2 (unvisitedOf spUrls v2), [siteUrl], d1, []⟩
    else
      match w.subScan (unvisitedOf spUrls v2) with
      | .error _ =>
        ⟨hitsSoFar, v1, v2, setAddAll v2 (unvisitedOf spUrls v2), [siteUrl], d1,
          unvisitedOf spUrls v2⟩
      | .ok subHits =>
        ⟨hitsSoFar ++ subHits, v1, v2, setAddAll v2 (unvisitedOf spUrls v2),
          [siteUrl], d1, unvisitedOf spUrls v2⟩

/-- `findAllergyPDFs(siteUrl)` from src/index.js.  `pdfLinks` and `visitedUrls`
start empty; the seed page is scanned and then marked visited; sitemap URLs are
filtered against the visited set, the survivors marked visited and scanned when
any exist (the source's outer `sitemapUrls.length > 0` guard only wraps no-op
filtering/adding for the empty list, so it is absorbed by the
`unvisited ≠ []` guard); then the sub-page phase runs; the top-level `catch`
returns the hits accumulated up to the exception. -/
def findAllergyPDFs (w : OrchWorld) (siteUrl : String) : RunOutcome :=
  match w.seedScan with
  | .error _ => ⟨[], [], [], [], [siteUrl], [], []⟩
  | .ok seedHits =>
    match w.sitemap with
    | .error _ =>
      ⟨seedHits, setAdd [] siteUrl, setAdd [] siteUrl, setAdd [] siteUrl,
        [siteUrl], [], []⟩
    | .ok smUrls =>
      if unvisitedOf smUrls (setAdd [] siteUrl) = [] then
        subpagePhase w siteUrl seedHits (setAdd [] siteUrl)
          (unvisitedOf smUrls (setAdd [] siteUrl))
          (setAddAll (setAdd [] siteUrl) (unvisitedOf smUrls (setAdd [] siteUrl)))
      else
        match w.sitemapScan (unvisitedOf smUrls (setAdd [] siteUrl)) with
        | .error _ =>
          ⟨seedHits, setAdd [] siteUrl,
            setAddAll (setAdd [] siteUrl) (unvisitedOf smUrls (setAdd [] siteUrl)),
            setAddAll (setAdd [] siteUrl) (unvisitedOf smUrls (setAdd [] siteUrl)),
            [siteUrl], unvisitedOf smUrls (setAdd [] siteUrl), []⟩
        | .ok smHits =>
          subpagePhase w siteUrl (seedHits ++ smHits) (setAdd [] siteUrl)
            (unvisitedOf smUrls (setAdd [] siteUrl))
            (setAddAll (setAdd [] siteUrl) (unvisitedOf smUrls (setAdd [] siteUrl)))

theorem subset_setAdd (s : List String) (x : String) : s ⊆ setAdd s x := by
  unfold setAdd
  by_cases h : x ∈ s
  · simp [h]
  · simp [h]

theorem mem_setAdd_self (s : List String) (x : String) : x ∈ setAdd s x := by
  unfold setAdd
  by_cases h : x ∈ s
  · simp [h]
  · simp [h]

theorem subset_setAddAll (xs : List String) :
    ∀ s : List String, s ⊆ setAddAll s xs := by
  induction xs with
  | nil => intro s; exact fun a ha => ha
  | cons x rest ih =>
    intro s
    exact fun a ha => ih (setAdd s x) (subset_setAdd s x ha)

theorem mem_setAddAll_of_mem (xs : List String) :
    ∀ (s : List String) (x : String), x ∈ xs → x ∈ setAddAll s xs := by
  induction xs with
  | nil => intro s x hx; cases hx
  | cons y rest ih =>
    intro s x hx
    cases hx with
    | head => exact subset_setAddAll rest (setAdd s y) (mem_setAdd_self s y)
    | tail _ hx => exact ih (setAdd s y) x hx

theorem notMem_of_mem_unvisited {l v : List String} {u : String}
    (hu : u ∈ unvisitedOf l v) : u ∉ v := by
  have h := List.of_mem_filter hu
  exact of_decide_eq_true h

theorem subpagePhase_spec (w : OrchWorld) (siteUrl : String) (hits : List PdfHit)
    (v1 d1 v2 : List String) :
    (subpagePhase w siteUrl hits v1 d1 v2).visitedAfterSeed = v1
    ∧ (subpagePhase w siteUrl hits v1 d1 v2).visitedAfterSitemap = v2
    ∧ v2 ⊆ (subpagePhase w siteUrl hits v1 d1 v2).visitedFinal
    ∧ (subpagePhase w siteUrl hits v1 d1 v2).seedDispatch = [siteUrl]
    ∧ (subpagePhase w siteUrl hits v1 d1 v2).sitemapDispatch = d1
    ∧ (∀ u, u ∈ (subpagePhase w siteUrl hits v1 d1 v2).subDispatch → u ∉ v2) := by
  unfold subpagePhase
  split
  · exact ⟨rfl, rfl, fun a ha => ha, rfl, rfl,
      fun u hu => absurd hu (List.not_mem_nil u)⟩
  · rename_i spUrls heq
    by_cases hd2 : unvisitedOf spUrls v2 = []
    · rw [if_pos hd2]
      exact ⟨rfl, rfl, subset_setAddAll _ _, rfl, rfl,
        fun u hu => absurd hu (List.not_mem_nil u)⟩
    · rw [if_neg hd2]
      split
      · exact ⟨rfl, rfl, subset_setAddAll _ _, rfl, rfl,
          fun u hu => notMem_of_mem_unvisited hu⟩
      · exact ⟨rfl, rfl, subset_setAddAll _ _, rfl, rfl,
          fun u hu => notMem_of_mem_unvisited hu⟩

theorem c5_aux (w : OrchWorld) (siteUrl : String) (hits : List PdfHit)
    (v1 d1 v2 : List String) (hseed : siteUrl ∈ v1)
    (hd1 : ∀ u, u ∈ d1 → u ∉ v1) (hv12 : v1 ⊆ v2)
    (hd1v2 : ∀ u, u ∈ d1 → u ∈ v2) :
    (subpagePhase w siteUrl hits v1 d1 v2).visitedAfterSeed
        ⊆ (subpagePhase w siteUrl hits v1 d1 v2).visitedAfterSitemap
    ∧ (subpagePhase w siteUrl hits v1 d1 v2).visitedAfterSitemap
        ⊆ (subpagePhase w siteUrl hits v1 d1 v2).visitedFinal
    ∧ (∀ u, u ∈ (subpagePhase w siteUrl hits v1 d1 v2).seedDispatch →
        u ∉ (subpagePhase w siteUrl hits v1 d1 v2).sitemapDispatch
        ∧ u ∉ (subpagePhase w siteUrl hits v1 d1 v2).subDispatch)
    ∧ (∀ u, u ∈ (subpagePhase w siteUrl hits v1 d1 v2).sitemapDispatch →
        u ∉ (subpagePhase w siteUrl hits v1 d1 v2).subDispatch) := by
  obtain ⟨h1, h2, h3, h4, h5, h6⟩ := subpagePhase_spec w siteUrl hits v1 d1 v2
  refine ⟨?_, ?_, ?_, ?_⟩
  · rw [h1, h2]; exact hv12
  · rw [h2]; exact h3
  · intro u hu
    rw [h4] at hu
    have hu' : u = siteUrl := List.mem_singleton.mp hu
    subst hu'
    constructor
    · rw [h5]
      intro hmem
      exact hd1 _ hmem hseed
    · intro hmem
      exact h6 _ hmem (hv12 hseed)
  · intro u hu
    rw [h5] at hu
    intro hmem
    exact h6 _ hmem (hd1v2 _ hu)

/-- C5: in every orchestrator run — whatever each phase returns or throws —
the visited set only ever grows (its successive snapshots form a ⊆-chain), and
the three phase dispatch lists are pairwise disjoint: the seed URL is never
re-dispatched in the sitemap or sub-page phase, and no URL dispatched in the
sitemap phase is dispatched again in the sub-page phase, because each phase's
list is filtered against the visited set and its survivors are marked visited
before dispatch. -/
theorem c5_visited_invariants (w : OrchWorld) (siteUrl : String) :
    (findAllergyPDFs w siteUrl).visitedAfterSeed
        ⊆ (findAllergyPDFs w siteUrl).visitedAfterSitemap
    ∧ (findAllergyPDFs w siteUrl).visitedAfterSitemap
        ⊆ (findAllergyPDFs w siteUrl).visitedFinal
    ∧ (∀ u, u ∈ (findAllergyPDFs w siteUrl).seedDispatch →
        u ∉ (findAllergyPDFs w siteUrl).sitemapDispatch
        ∧ u ∉ (findAllergyPDFs w siteUrl).subDispatch)
    ∧ (∀ u, u ∈ (findAllergyPDFs w siteUrl).sitemapDispatch →
        u ∉ (findAllergyPDFs w siteUrl).subDispatch) := by
  unfold findAllergyPDFs
  split
  · refine ⟨fun a ha => ha, fun a ha => ha, ?_, ?_⟩
    · intro u hu
      exact ⟨fun h => absurd h (List.not_mem_nil u),
        fun h => absurd h (List.not_mem_nil u)⟩
    · intro u hu
      exact absurd hu (List.not_mem_nil u)
  · rename_i seedHits heq
    split
    · refine ⟨fun a ha => ha, fun a ha => ha, ?_, ?_⟩
      · intro u hu
        exact ⟨fun h => absurd h (List.not_mem_nil u),
          fun h => absurd h (List.not_mem_nil u)⟩
      · intro u hu
        exact absurd hu (List.not_mem_nil u)
    · rename_i smUrls heq2
      have hseed : siteUrl ∈ setAdd [] siteUrl := mem_setAdd_self [] siteUrl
      have hd1 : ∀ u, u ∈ unvisitedOf smUrls (setAdd [] siteUrl) →
          u ∉ setAdd [] siteUrl := fun u hu => notMem_of_mem_unvisited hu
      have hv12 : setAdd [] siteUrl ⊆
          setAddAll (setAdd [] siteUrl) (unvisitedOf smUrls (setAdd [] siteUrl)) :=
        subset_setAddAll _ _
      have hd1v2 : ∀ u, u ∈ unvisitedOf smUrls (setAdd [] siteUrl) →
          u ∈ setAddAll (setAdd [] siteUrl) (unvisitedOf smUrls (setAdd [] siteUrl)) :=
        fun u hu => mem_setAddAll_of_mem _ _ _ hu
      by_cases hd1e : unvisitedOf smUrls (setAdd [] siteUrl) = []
      · rw [if_pos hd1e]
        exact c5_aux w siteUrl seedHits _ _ _ hseed hd1 hv12 hd1v2
      · rw [if_neg hd1e]
        split
        · refine ⟨hv12, fun a ha => ha, ?_, ?_⟩
          · intro u hu
            have hu' : u = siteUrl := List.mem_singleton.mp hu
            subst hu'
            exact ⟨fun h => hd1 _ h hseed, fun h => absurd h (List.not_mem_nil _)⟩
          · intro u hu
            exact fun h => absurd h (List.not_mem_nil u)
        · rename_i smHits heq3
          exact c5_aux w siteUrl (seedHits ++ smHits) _ _ _ hseed hd1 hv12 hd1v2

def wDemo : OrchWorld :=
  ⟨some allowAll, .ok [], .ok [seedUrl, "https://example.test/a"],
   fun _ => .ok [], .ok [], fun _ => .ok []⟩

/-- Witness for C5: in a concrete run whose sitemap repeats the seed URL, the
seed is dispatched in the seed phase and not re-dispatched in the sitemap
phase. -/
theorem c5_visited_invariants_witness :
    seedUrl ∈ (findAllergyPDFs wDemo seedUrl).seedDispatch
    ∧ seedUrl ∉ (findAllergyPDFs wDemo seedUrl).sitemapDispatch :=
  ⟨by decide,
   fun hmem =>
     ((c5_visited_invariants wDemo seedUrl).2.2.1 seedUrl (by decide)).1 hmem⟩

/-- Hits accumulated phase by phase, stopping at the first phase that throws:
completed phases keep their hits, the throwing phase and everything after it
contribute nothing. -/
def accumUntilError : List (Except Unit (List PdfHit)) → List PdfHit
  | [] => []
  | .error _ :: _ => []
  | .ok hits :: rest => hits ++ accumUntilError rest

/-- Spec-side description of the sub-page phase's outcome entries: the
discovery outcome (no hits of its own) followed by the batch scan when it is
invoked. -/
def phaseTail (w : OrchWorld) (v2 : List String) :
    List (Except Unit (List PdfHit)) :=
  match w.subpages with
  | .error _ => [.error ()]
  | .ok spUrls =>
    if unvisitedOf spUrls v2 = [] then []
    else [w.subScan (unvisitedOf spUrls v2)]

/-- Spec-side description of one run as the ordered list of phase outcomes
seen by the orchestrator: seed scan, sitemap discovery, sitemap scan (when
invoked), sub-page discovery and sub-page scan (when invoked). -/
def phaseList (w : OrchWorld) (siteUrl : String) :
    List (Except Unit (List PdfHit)) :=
  w.seedScan ::
    match w.sitemap with
    | .error _ => [.error ()]
    | .ok smUrls =>
      if unvisitedOf smUrls (setAdd [] siteUrl) = [] then
        phaseTail w
          (setAddAll (setAdd [] siteUrl) (unvisitedOf smUrls (setAdd [] siteUrl)))
      else
        w.sitemapScan (unvisitedOf smUrls (setAdd [] siteUrl)) ::
          phaseTail w
            (setAddAll (setAdd [] siteUrl) (unvisitedOf smUrls (setAdd [] siteUrl)))

theorem subpagePhase_hits (w : OrchWorld) (siteUrl : String)
    (hits : List PdfHit) (v1 d1 v2 : List String) :
    (subpagePhase w siteUrl hits v1 d1 v2).hits
      = hits ++ accumUntilError (phaseTail w v2) := by
  unfold subpagePhase phaseTail
  split
  · simp [accumUntilError]
  · rename_i spUrls heq
    by_cases hd2 : unvisitedOf spUrls v2 = []
    · rw [if_pos hd2, if_pos hd2]
      simp [accumUntilError]
    · rw [if_neg hd2, if_neg hd2]
      split
      · rename_i e heq2
        rw [heq2]
        simp [accumUntilError]
      · rename_i subHits heq2
        rw [heq2]
        simp [accumUntilError]

/-- C8: the orchestrator is total (it returns a hit list, never re-throwing),
and for every world — in particular whenever some phase throws — the returned
list is exactly the concatenation of the hits of the phases completed before
the first throwing phase: partial results are kept, never discarded. -/
theorem c8_partial_results (w : OrchWorld) (siteUrl : String) :
    (findAllergyPDFs w siteUrl).hits = accumUntilError (phaseList w siteUrl) := by
  unfold findAllergyPDFs phaseList
  cases hseed : w.seedScan with
  | error e => simp [hseed, accumUntilError]
  | ok seedHits =>
    cases hsm : w.sitemap with
    | error e => simp [hseed, hsm, accumUntilError]
    | ok smUrls =>
      by_cases hd1 : unvisitedOf smUrls (setAdd [] siteUrl) = []
      · simp [hseed, hsm, hd1, accumUntilError, subpagePhase_hits]
      · cases hscan : w.sitemapScan (unvisitedOf smUrls (setAdd [] siteUrl)) with
        | error e => simp [hseed, hsm, hd1, hscan, accumUntilError]
        | ok smHits =>
          simp [hseed, hsm, hd1, hscan, accumUntilError, subpagePhase_hits,
            List.append_assoc]

/-- Witness for C6 at a concrete 5-URL list with `maxConcurrent = 2`. -/
theorem c6_batching_witness :
    (chunkBatches 2 ["u1", "u2", "u3", "u4", "u5"]).map List.length = [2, 2, 1]
    ∧ ["u1", "u2"].length ≤ 2 :=
  have h := c6_batching (fun _ => []) ["u1", "u2", "u3", "u4", "u5"] 1
    "u1" "u2" "u3" "u4" "u5"
  ⟨h.2.2.1, h.2.1 ["u1", "u2"] (by decide)⟩
